/-
Verification of the rpi-dobot conveyor-belt detection engine.

Shallow embedding of the detection code in
`pwa-dobot-plc/backend/camera_service.py` (class CameraService:
`detect_objects`, `_merge_nearby_objects`),
`pwa-dobot-plc/backend/vision_service.py` (`detect_with_yolo`) and
`pwa-dobot-plc/backend/app.py` (counter numbering in `vision_detect` /
`vision_analyze`, `write_plc_fault_bit`).

Modelling conventions:
* Python floats are modelled as exact rationals (ℚ); `np.pi` is the exact
  value of the IEEE-754 double `3.141592653589793`.
* OpenCV library routines (contour extraction, convex hull, blob detection,
  the MOG2 background subtractor, YOLO inference) are external to the
  repository; their outputs for the captured frame are the inputs of the
  embedded functions, as lists of per-contour / per-keypoint / per-box
  measurement records.  The repository's own arithmetic, filtering, scoring,
  merging, ordering and state handling are embedded faithfully.
* Python `int(...)` truncates toward zero; `round(x, 2)` rounds half to
  even; Python's `sorted`/`list.sort` are stable sorts, modelled by the
  stable `List.insertionSort`.
-/
import Mathlib

namespace RpiDobot

/-- The exact rational value of the IEEE-754 double `np.pi`
(`3.141592653589793`), i.e. `884279719003555 / 2^48`. -/
def npPi : ℚ := 884279719003555 / 281474976710656

/-- Python `int(...)` applied to a real value: truncation toward zero. -/
def pyInt (q : ℚ) : ℤ := if q < 0 then -⌊-q⌋ else ⌊q⌋

/-- Round half to even (banker's rounding), as Python's builtin `round`. -/
def roundHalfEven (q : ℚ) : ℤ :=
  if q - ⌊q⌋ < 1/2 then ⌊q⌋
  else if 1/2 < q - ⌊q⌋ then ⌊q⌋ + 1
  else if 2 ∣ ⌊q⌋ then ⌊q⌋ else ⌊q⌋ + 1

/-- Python `round(q, 2)`. -/
def pyRound2 (q : ℚ) : ℚ := (roundHalfEven (100 * q) : ℚ) / 100

/-- Measurements OpenCV reports for one contour: `cv2.contourArea(contour)`,
`cv2.arcLength(contour, True)`, `cv2.contourArea(cv2.convexHull(contour))`,
`cv2.boundingRect(contour)` and `cv2.minEnclosingCircle(contour)`. -/
structure Contour where
  area : ℚ
  perimeter : ℚ
  hullArea : ℚ
  x : ℤ
  y : ℤ
  w : ℤ
  h : ℤ
  mcx : ℚ
  mcy : ℚ
  mcr : ℚ

/-- A keypoint returned by `cv2.SimpleBlobDetector` (`kp.pt`, `kp.size`). -/
structure Keypoint where
  px : ℚ
  py : ℚ
  size : ℚ

/-- One detection of the spec's Stage-1 circular (Hough-style) transform:
the fitted contour's area and perimeter. -/
structure HoughDetection where
  fitArea : ℚ
  fitPerimeter : ℚ

/-- What the image-processing library extracts from one captured frame (for
the current parameters): a representative blurred-grayscale pixel value, the
contours of the cleaned foreground mask, the contours of the adaptive
threshold image, the blob keypoints, the contours of the HSV object mask,
and (for comparison with the spec) the Stage-1 circular-transform
detections.  All detector strategies observe this same frame. -/
structure DetectInput where
  pixel : ℚ
  bgContours : List Contour
  threshContours : List Contour
  blobKeypoints : List Keypoint
  maskContours : List Contour
  houghDetections : List HoughDetection

/-- One entry of the `objects` list built by `detect_objects` /
`detect_with_yolo` (a Python dict; keys absent from a given strategy are
`none`). -/
structure DetObj where
  type : String
  x : ℤ
  y : ℤ
  w : ℤ
  h : ℤ
  area : ℚ
  cx : ℤ
  cy : ℤ
  confidence : ℚ
  method : String
  aspectRatio : Option ℚ := none
  solidity : Option ℚ := none
  circularity : Option ℚ := none
  radius : Option ℤ := none
  counterNumber : Option ℕ := none
  clsName : Option String := none
  clsId : Option ℕ := none
deriving DecidableEq

/-- The per-call parameter dict of `detect_objects`; a `none` field models
an absent key, read through `params.get(key, default)`. -/
structure DetectParams where
  min_object_area : Option ℚ := none
  max_object_area : Option ℚ := none
  use_background_subtraction : Option Bool := none
  bg_learning_rate : Option ℚ := none
  aspect_ratio_min : Option ℚ := none
  aspect_ratio_max : Option ℚ := none
  min_confidence : Option ℚ := none
  min_circularity : Option ℚ := none

def DetectParams.minObjectArea (p : DetectParams) : ℚ := p.min_object_area.getD 5000
def DetectParams.maxObjectArea (p : DetectParams) : ℚ := p.max_object_area.getD 100000
def DetectParams.useBg (p : DetectParams) : Bool := p.use_background_subtraction.getD true
def DetectParams.bgLearningRate (p : DetectParams) : ℚ := p.bg_learning_rate.getD (1/1000)
def DetectParams.aspectRatioMin (p : DetectParams) : ℚ := p.aspect_ratio_min.getD (2/10)
def DetectParams.aspectRatioMax (p : DetectParams) : ℚ := p.aspect_ratio_max.getD 5
def DetectParams.minConfidence (p : DetectParams) : ℚ := p.min_confidence.getD (7/10)
def DetectParams.minCircularity (p : DetectParams) : ℚ := p.min_circularity.getD (6/10)

/-- The background-subtraction state held on the `CameraService` object:
`bg_subtractor is not None`, `bg_initialized`, `bg_learning_frames`, and the
subtractor's internal statistics.  The statistics of the external MOG2
subtractor are Modelled from the spec: an exponential-moving-average
background estimate (one representative value), blended with learning rate
`bg_learning_rate` on every `apply` call. -/
structure BgState where
  hasSubtractor : Bool
  bgInitialized : Bool
  bgLearningFrames : ℕ
  model : ℚ

/-- Fresh `CameraService` state (also the state after `release_camera`,
which sets the subtractor to `None` and resets the flags). -/
def BgState.init : BgState := ⟨false, false, 0, 0⟩

/-- The dict returned by `detect_objects`. -/
structure DetectResult where
  objectsFound : Bool
  objectCount : ℕ
  objects : List DetObj
  method : String
  bgInitialized : Bool
  bgLearningFrames : ℕ
  error : Option String := none

/-- The aspect ratio `float(w) / h if h > 0 else 0` of a bounding box. -/
def boxAspect (c : Contour) : ℚ := if c.h > 0 then (c.w : ℚ) / (c.h : ℚ) else 0

/-- `solidity = float(area) / hull_area if hull_area > 0 else 0`. -/
def contourSolidity (c : Contour) : ℚ :=
  if c.hullArea > 0 then c.area / c.hullArea else 0

/-- `min(area / max_object_area, 1.0)`, the normalized area. -/
def areaConf (p : DetectParams) (c : Contour) : ℚ :=
  min (c.area / p.maxObjectArea) 1

/-- `circularity = 4·π·area/perimeter² if perimeter > 0 else 0`. -/
def contourCircularity (c : Contour) : ℚ :=
  if c.perimeter > 0 then 4 * npPi * c.area / c.perimeter ^ 2 else 0

/-- Background-subtraction candidate for one foreground-mask contour
(`detect_objects`, background branch): area gate, aspect-ratio gate,
solidity, confidence `0.6·min(area/max_area,1) + 0.4·solidity`, gated by
`min_confidence`. -/
def bgCandidate (p : DetectParams) (c : Contour) : Option DetObj :=
  if p.minObjectArea < c.area ∧ c.area < p.maxObjectArea then
    if p.aspectRatioMin < boxAspect c ∧ boxAspect c < p.aspectRatioMax then
      if p.minConfidence ≤ areaConf p c * (6/10) + contourSolidity c * (4/10) then
        some { type := "object", x := c.x, y := c.y, w := c.w, h := c.h,
               area := c.area,
               cx := pyInt ((c.x : ℚ) + (c.w : ℚ) / 2),
               cy := pyInt ((c.y : ℚ) + (c.h : ℚ) / 2),
               confidence := pyRound2 (areaConf p c * (6/10) + contourSolidity c * (4/10)),
               method := "background",
               aspectRatio := some (pyRound2 (boxAspect c)),
               solidity := some (pyRound2 (contourSolidity c)) }
      else none
    else none
  else none

/-- Contour-method candidate for one adaptive-threshold contour
(`detect_objects`, `method == 'contour'` branch): area gate, aspect-ratio
gate, fixed confidence `0.7`. -/
def contourCandidate (p : DetectParams) (c : Contour) : Option DetObj :=
  if p.minObjectArea < c.area ∧ c.area < p.maxObjectArea then
    if p.aspectRatioMin < boxAspect c ∧ boxAspect c < p.aspectRatioMax then
      some { type := "object", x := c.x, y := c.y, w := c.w, h := c.h,
             area := c.area,
             cx := pyInt ((c.x : ℚ) + (c.w : ℚ) / 2),
             cy := pyInt ((c.y : ℚ) + (c.h : ℚ) / 2),
             confidence := 7/10, method := "contour" }
    else none
  else none

/-- Blob-method candidate for one keypoint (`detect_objects`,
`method == 'blob'` branch): fixed confidence `0.6`, square box of side
`int(kp.size)` centered on the keypoint, area `π·(size/2)²`. -/
def blobCandidate (kp : Keypoint) : DetObj :=
  let x : ℤ := pyInt kp.px
  let y : ℤ := pyInt kp.py
  let size : ℤ := pyInt kp.size
  { type := "object",
    x := pyInt ((x : ℚ) - (size : ℚ) / 2),
    y := pyInt ((y : ℚ) - (size : ℚ) / 2),
    w := size, h := size,
    area := npPi * ((size : ℚ) / 2) ^ 2,
    cx := x, cy := y,
    confidence := 6/10, method := "blob" }

/-- Circle-method candidate for one HSV-object-mask contour
(`detect_objects`, `method == 'circle'` branch): area gate, circularity
`4π·area/perimeter²` gated by `min_circularity`, bounding-box aspect ratio
gated to `(0.7, 1.3)`, confidence `0.7·circularity + 0.3·min(area/max_area,1)`
gated by `min_confidence`. -/
def circleCandidate (p : DetectParams) (c : Contour) : Option DetObj :=
  if p.minObjectArea < c.area ∧ c.area < p.maxObjectArea then
    if p.minCircularity ≤ contourCircularity c then
      if 7/10 < boxAspect c ∧ boxAspect c < 13/10 then
        if p.minConfidence ≤
            contourCircularity c * (7/10) + areaConf p c * (3/10) then
          some { type := "circle", x := c.x, y := c.y, w := c.w, h := c.h,
                 area := c.area,
                 cx := pyInt c.mcx, cy := pyInt c.mcy,
                 radius := some (pyInt c.mcr),
                 circularity := some (pyRound2 (contourCircularity c)),
                 confidence :=
                   pyRound2 (contourCircularity c * (7/10) + areaConf p c * (3/10)),
                 method := "circle",
                 aspectRatio := some (pyRound2 (boxAspect c)) }
        else none
      else none
    else none
  else none

/-- The center-distance test of `_merge_nearby_objects`:
`np.sqrt((cx₁-cx₂)² + (cy₁-cy₂)²) < threshold`.  Since both sides are
nonnegative and squaring is monotone, this is exactly
`0 ≤ threshold ∧ (cx₁-cx₂)² + (cy₁-cy₂)² < threshold²`. -/
def centerClose (a b : DetObj) (threshold : ℤ) : Bool :=
  decide (0 ≤ threshold) &&
    decide ((a.cx - b.cx) ^ 2 + (a.cy - b.cy) ^ 2 < threshold ^ 2)

/-- Merge of a group of ≥ 2 candidates (`_merge_nearby_objects`): bounding
box `x,y = min`, `w,h` spanning to the max right/bottom edge, area = sum,
confidence = max, center = box center (Python `//`, i.e. floor division). -/
def mergeGroup (o : DetObj) (os : List DetObj) : DetObj :=
  let x : ℤ := (os.map DetObj.x).foldl min o.x
  let y : ℤ := (os.map DetObj.y).foldl min o.y
  let w : ℤ := ((os.map fun p => p.x + p.w).foldl max (o.x + o.w)) - x
  let h : ℤ := ((os.map fun p => p.y + p.h).foldl max (o.y + o.h)) - y
  { type := "object", x := x, y := y, w := w, h := h,
    area := os.foldl (fun s p => s + p.area) o.area,
    cx := x + w / 2, cy := y + h / 2,
    confidence := os.foldl (fun m p => max m p.confidence) o.confidence,
    method := "merged" }

/-- `_merge_nearby_objects`: take the first not-yet-used candidate, group it
with every later unused candidate whose center is within `threshold`, emit
the merged group (or the candidate itself if alone), and continue on the
rest.  The index-and-`used`-set loop of the source visits exactly the first
remaining candidate and said partners, so it is this recursion. -/
def mergeNearbyObjects (objects : List DetObj) (threshold : ℤ) : List DetObj :=
  match objects with
  | [] => []
  | o :: rest =>
    let near := rest.filter (fun p => centerClose o p threshold)
    let far := rest.filter (fun p => ¬ centerClose o p threshold)
    (if near.length > 0 then mergeGroup o near else o) ::
      mergeNearbyObjects far threshold
termination_by objects.length
decreasing_by
  simp only [List.length_cons]
  exact Nat.lt_succ_of_le (List.length_filter_le _ _)

/-- `sorted(objects, key=lambda x: x.get('confidence', 0), reverse=True)`:
a stable sort, by descending confidence. -/
def sortByConfDesc (objects : List DetObj) : List DetObj :=
  objects.insertionSort fun a b => b.confidence ≤ a.confidence

/-- The final "keep only the most confident detection" step of
`detect_objects`: when more than one candidate survives, keep the first
element of the stable descending sort. -/
def keepBest (objects : List DetObj) : List DetObj :=
  if objects.length > 1 then (sortByConfDesc objects).take 1 else objects

/-- The background-branch state update of one `detect_objects` call:
create the subtractor if it is `None` (resetting the learning counters),
run `bg_subtractor.apply(blurred, learningRate=bg_learning_rate)` (which
blends the frame into the statistics on every call), then increment the
learning-frame counter and flip `bg_initialized` once it reaches 30. -/
def bgApply (st : BgState) (p : DetectParams) (input : DetectInput) : BgState :=
  let st1 := if st.hasSubtractor then st else ⟨true, false, 0, 0⟩
  let st2 : BgState := { st1 with
    model := (1 - p.bgLearningRate) * st1.model
               + p.bgLearningRate * input.pixel }
  if st2.bgInitialized then st2
  else { st2 with
    bgLearningFrames := st2.bgLearningFrames + 1,
    bgInitialized := decide (30 ≤ st2.bgLearningFrames + 1) }

/-- The strategy phase of `detect_objects`: runs the background branch
(updating the service state; mask contours are consumed only once the
background is learned), then — only with background subtraction disabled —
the contour and/or blob branches, then the circle branch, and concatenates
their candidates in that order. -/
def strategyPhase (st : BgState) (method : String) (p : DetectParams)
    (input : DetectInput) : BgState × List DetObj :=
  let st' := if p.useBg = true ∨ method = "background" then bgApply st p input else st
  let bgObjs :=
    if (p.useBg = true ∨ method = "background") ∧ st'.bgInitialized = true then
      input.bgContours.filterMap (bgCandidate p)
    else []
  let contourObjs :=
    if p.useBg = false ∧ (method = "contour" ∨ method = "combined") then
      input.threshContours.filterMap (contourCandidate p)
    else []
  let blobObjs :=
    if p.useBg = false ∧ (method = "blob" ∨ method = "combined") then
      input.blobKeypoints.map blobCandidate
    else []
  let circleObjs :=
    if method = "circle" then input.maskContours.filterMap (circleCandidate p)
    else []
  (st', bgObjs ++ contourObjs ++ blobObjs ++ circleObjs)

/-- The candidates surviving filtering and (for `'combined'`) merging,
before the keep-only-the-best step. -/
def survivors (st : BgState) (method : String) (p : DetectParams)
    (input : DetectInput) : List DetObj :=
  if method = "combined" ∧ (strategyPhase st method p input).2.length > 0 then
    mergeNearbyObjects (strategyPhase st method p input).2 50
  else (strategyPhase st method p input).2

/-- `CameraService.detect_objects`.  A `none` frame gives the
`'No frame provided'` error result; otherwise the strategy phase runs,
`'combined'` results are merged, at most the single most confident
candidate is kept, and the result dict is assembled (`object_count` is the
running counter, which after merging and best-selection equals the final
list's length). -/
def detectObjects (st : BgState) (method : String) (p : DetectParams)
    (frame : Option DetectInput) : BgState × DetectResult :=
  match frame with
  | none =>
    (st, { objectsFound := false, objectCount := 0, objects := [],
           method := method, bgInitialized := st.bgInitialized,
           bgLearningFrames := st.bgLearningFrames,
           error := some "No frame provided" })
  | some input =>
    let st' := (strategyPhase st method p input).1
    let merged := survivors st method p input
    let objects := keepBest merged
    let count : ℕ := if merged.length > 1 then 1 else merged.length
    (st', { objectsFound := decide (0 < count), objectCount := count,
            objects := objects, method := method,
            bgInitialized := st'.bgInitialized,
            bgLearningFrames := st'.bgLearningFrames })

/-- A sequence of `detect_objects` calls on one `CameraService`, returning
the final state and the per-call results. -/
def runDetect (st : BgState) (method : String) (p : DetectParams)
    (frames : List DetectInput) : BgState × List DetectResult :=
  match frames with
  | [] => (st, [])
  | f :: fs =>
    ((runDetect (detectObjects st method p (some f)).1 method p fs).1,
     (detectObjects st method p (some f)).2 ::
       (runDetect (detectObjects st method p (some f)).1 method p fs).2)

/-- One box of a YOLO inference result (`box.xyxy`, `box.conf`, `box.cls`,
`result.names[cls]`), in cropped-frame coordinates. -/
structure YoloBox where
  x1 : ℚ
  y1 : ℚ
  x2 : ℚ
  y2 : ℚ
  conf : ℚ
  clsId : ℕ
  clsName : String

/-- The inputs of `detect_with_yolo`: the frame dimensions and the boxes
the YOLO model reports on the cropped frame. -/
structure YoloInput where
  frameH : ℕ
  frameW : ℕ
  boxes : List YoloBox

/-- The parameter dict of `detect_with_yolo` (crop percentages; the
confidence/iou thresholds are consumed by the YOLO library itself). -/
structure YoloParams where
  crop_top_percent : Option ℚ := none
  crop_bottom_percent : Option ℚ := none

def YoloParams.cropTopPercent (p : YoloParams) : ℚ := p.crop_top_percent.getD 0
def YoloParams.cropBottomPercent (p : YoloParams) : ℚ := p.crop_bottom_percent.getD 0

/-- The dict returned by `detect_with_yolo`. -/
structure YoloResult where
  objectsFound : Bool
  objectCount : ℕ
  objects : List DetObj
  error : Option String := none

/-- One object dict built by `detect_with_yolo` from a YOLO box, with the
box coordinates shifted back by `crop_top` into original-frame
coordinates. -/
def yoloObj (cropTop : ℤ) (b : YoloBox) : DetObj :=
  let x : ℤ := pyInt b.x1
  let y : ℤ := pyInt (b.y1 + (cropTop : ℚ))
  let w : ℤ := pyInt (b.x2 - b.x1)
  let h : ℤ := pyInt (b.y2 + (cropTop : ℚ) - (b.y1 + (cropTop : ℚ)))
  { type := "counter", x := x, y := y, w := w, h := h,
    area := ((w * h : ℤ) : ℚ),
    cx := pyInt (b.x1 + (w : ℚ) / 2),
    cy := pyInt (b.y1 + (cropTop : ℚ) + (h : ℚ) / 2),
    confidence := pyRound2 b.conf, method := "yolo",
    clsName := some b.clsName, clsId := some b.clsId }

/-- `vision_service.detect_with_yolo`: availability guards, top/bottom
cropping with an invalid-dimensions guard, then one object per reported
box; `objects_found` is `len(objects) > 0`. -/
def detectWithYolo (yoloAvailable modelLoaded : Bool) (input : YoloInput)
    (p : YoloParams) : YoloResult :=
  if yoloAvailable = false then
    { objectsFound := false, objectCount := 0, objects := [],
      error := some "YOLO library not available" }
  else if modelLoaded = false then
    { objectsFound := false, objectCount := 0, objects := [],
      error := some "YOLO model not loaded" }
  else
    let cropTop : ℤ := pyInt ((input.frameH : ℚ) * p.cropTopPercent / 100)
    let cropBottom : ℤ :=
      pyInt ((input.frameH : ℚ) * (100 - p.cropBottomPercent) / 100)
    -- `frame[crop_top:crop_bottom, :]` : Python slicing clamps the bounds
    let croppedH : ℤ := max 0 (min cropBottom (input.frameH : ℤ) - max cropTop 0)
    if croppedH = 0 ∨ input.frameW = 0 then
      { objectsFound := false, objectCount := 0, objects := [],
        error := some "Invalid frame dimensions" }
    else
      let objects := input.boxes.map (yoloObj cropTop)
      { objectsFound := decide (0 < objects.length),
        objectCount := objects.length, objects := objects }

/-- The counter-numbering step shared by `vision_detect` and
`vision_analyze` in `app.py`: stable-sort the detected objects by
`obj.get('x', 0)` ascending and assign `counterNumber = 1, 2, …` in that
order. -/
def assignCounterNumbers (objs : List DetObj) : List DetObj :=
  (objs.insertionSort fun a b => a.x ≤ b.x).mapIdx
    fun i o => { o with counterNumber := some (i + 1) }

/-- The `vision` section of the configuration read by
`write_plc_fault_bit` (`fault_bit_enabled`, `fault_bit_byte`,
`fault_bit_bit`). -/
structure VisionConfig where
  faultBitEnabled : Bool
  faultBitByte : ℤ
  faultBitBit : ℤ

/-- The observable state of the PLC client collaborator as
`write_plc_fault_bit` consults it: whether the client object exists with a
non-`None` low-level `client`, what `is_connected()` reports, and whether
`write_m_bit` succeeds. -/
structure PlcClientState where
  clientAvailable : Bool
  isConnected : Bool
  writeSucceeds : Bool

/-- The dict returned by `write_plc_fault_bit`. -/
structure PlcWriteResult where
  written : Bool
  reason : Option String := none
  address : Option String := none
  value : Option Bool := none

/-- `app.write_plc_fault_bit`: disabled / client-unavailable /
not-connected / write-failed cases each return a reason dict; only a
successful `write_m_bit` reports `written: True`.  Every branch returns
normally (the source catches all exceptions), so the caller is never
blocked or failed by this collaborator. -/
def write_plc_fault_bit (cfg : VisionConfig) (plc : PlcClientState)
    (defectsFound : Bool) : PlcWriteResult :=
  if cfg.faultBitEnabled = false then { written := false, reason := some "disabled" }
  else if plc.clientAvailable = false then
    { written := false, reason := some "plc_not_available" }
  else
    let addr := "M" ++ toString cfg.faultBitByte ++ "." ++ toString cfg.faultBitBit
    if plc.isConnected then
      if plc.writeSucceeds then
        { written := true, address := some addr, value := some defectsFound }
      else { written := false, reason := some "write_failed", address := some addr }
    else { written := false, reason := some "plc_not_connected" }

/-- Modelled from the spec: the repository's `method == 'circle'` branch
has no circular-transform stage, so Stage 1 of §4.3 ("circular transform on
blurred grayscale … accept only if area in range AND … circularity =
4π·area/perimeter² ≥ 0.65; confidence = 0.6 + 0.4·normalized_area") is
missing from the code and is reconstructed here from the spec's words, over
the Stage-1 detections a frame affords. -/
def stage1Candidates (p : DetectParams) (ds : List HoughDetection) : List DetObj :=
  ds.filterMap fun d =>
    if p.minObjectArea < d.fitArea ∧ d.fitArea < p.maxObjectArea then
      let circularity : ℚ :=
        if d.fitPerimeter > 0 then 4 * npPi * d.fitArea / d.fitPerimeter ^ 2 else 0
      if 65/100 ≤ circularity then
        let normalizedArea : ℚ := min (d.fitArea / p.maxObjectArea) 1
        some { type := "circle", x := 0, y := 0, w := 0, h := 0,
               area := d.fitArea, cx := 0, cy := 0,
               confidence := 6/10 + (4/10) * normalizedArea,
               method := "hough" }
      else none
    else none

/-! ### Basic facts about the rounding helpers -/

theorem roundHalfEven_lower (q : ℚ) : ⌊q⌋ ≤ roundHalfEven q := by
  unfold roundHalfEven
  split_ifs <;> omega

theorem roundHalfEven_nonneg (q : ℚ) (h : 0 ≤ q) : 0 ≤ roundHalfEven q :=
  le_trans (Int.floor_nonneg.mpr h) (roundHalfEven_lower q)

theorem roundHalfEven_le (q : ℚ) (n : ℤ) (h : q ≤ n) : roundHalfEven q ≤ n := by
  have hfl : ⌊q⌋ ≤ n := by
    have := Int.floor_le_floor h
    simpa using this
  have hq : (⌊q⌋ : ℚ) ≤ q := Int.floor_le q
  unfold roundHalfEven
  split_ifs with h1 h2 h3
  · exact hfl
  · -- the value is ⌊q⌋ + 1 and q - ⌊q⌋ > 1/2, so ⌊q⌋ < n
    rcases lt_or_eq_of_le hfl with hlt | heq
    · omega
    · exfalso
      rw [heq] at hq h2
      have : q ≤ (n : ℚ) := h
      linarith
  · exact hfl
  · -- the tie case: q - ⌊q⌋ = 1/2, so ⌊q⌋ < n
    rcases lt_or_eq_of_le hfl with hlt | heq
    · omega
    · exfalso
      have hf : (1 : ℚ)/2 ≤ q - ⌊q⌋ := le_of_not_lt h1
      rw [heq] at hq hf
      have : q ≤ (n : ℚ) := h
      linarith

theorem pyRound2_nonneg (q : ℚ) (h : 0 ≤ q) : 0 ≤ pyRound2 q := by
  unfold pyRound2
  have h0 : (0 : ℤ) ≤ roundHalfEven (100 * q) :=
    roundHalfEven_nonneg _ (by linarith)
  positivity

theorem pyRound2_le_one (q : ℚ) (h : q ≤ 1) : pyRound2 q ≤ 1 := by
  unfold pyRound2
  have h100 : roundHalfEven (100 * q) ≤ (100 : ℤ) :=
    roundHalfEven_le _ 100 (by push_cast; linarith)
  rw [div_le_one (by norm_num)]
  exact_mod_cast h100

/-! ### C9 — PLC fault-bit write with a disconnected controller client -/

/-- C9: with fault-bit writing enabled and the controller client available
but reporting `is_connected() == False`, `write_plc_fault_bit` returns
normally (no exception — the embedding is a total function, as every branch
of the source returns a caught-and-converted value) with
`{written: false, reason: "plc_not_connected"}`, so the detection call is
never blocked or failed by this collaborator. -/
theorem faultBit_disconnected_reports_not_connected
    (cfg : VisionConfig) (plc : PlcClientState) (defectsFound : Bool)
    (hen : cfg.faultBitEnabled = true)
    (hav : plc.clientAvailable = true)
    (hconn : plc.isConnected = false) :
    write_plc_fault_bit cfg plc defectsFound =
      { written := false, reason := some "plc_not_connected" } := by
  simp [write_plc_fault_bit, hen, hav, hconn]

/-- Witness for C9 at a concrete configuration and client state. -/
theorem faultBit_disconnected_reports_not_connected_witness :
    write_plc_fault_bit ⟨true, 1, 0⟩ ⟨true, false, false⟩ true =
      { written := false, reason := some "plc_not_connected" } :=
  faultBit_disconnected_reports_not_connected ⟨true, 1, 0⟩ ⟨true, false, false⟩
    true rfl rfl rfl

/-! ### C4 — merging two nearby candidates -/

/-- C4: two candidates whose centers pass the merge-distance test merge
into exactly one derived candidate whose bounding box is the union of the
inputs' boxes, whose area is the sum of their areas and whose confidence is
the maximum of their confidences. -/
theorem merge_two_close_candidates (a b : DetObj) (t : ℤ)
    (h : centerClose a b t = true) :
    mergeNearbyObjects [a, b] t = [mergeGroup a [b]] ∧
    (mergeGroup a [b]).x = min a.x b.x ∧
    (mergeGroup a [b]).y = min a.y b.y ∧
    (mergeGroup a [b]).x + (mergeGroup a [b]).w = max (a.x + a.w) (b.x + b.w) ∧
    (mergeGroup a [b]).y + (mergeGroup a [b]).h = max (a.y + a.h) (b.y + b.h) ∧
    (mergeGroup a [b]).area = a.area + b.area ∧
    (mergeGroup a [b]).confidence = max a.confidence b.confidence := by
  refine ⟨?_, by simp [mergeGroup], by simp [mergeGroup], by simp [mergeGroup],
    by simp [mergeGroup], by simp [mergeGroup], by simp [mergeGroup]⟩
  rw [mergeNearbyObjects]
  simp [h, mergeNearbyObjects]

/-- Witness for C4: two concrete candidates 10 px apart with threshold 50. -/
theorem merge_two_close_candidates_witness :
    centerClose
        { type := "object", x := 100, y := 100, w := 40, h := 40, area := 1200,
          cx := 120, cy := 120, confidence := 1, method := "contour" }
        { type := "object", x := 110, y := 100, w := 40, h := 40, area := 1300,
          cx := 130, cy := 120, confidence := 1, method := "contour" } 50 = true ∧
    mergeNearbyObjects
        [{ type := "object", x := 100, y := 100, w := 40, h := 40, area := 1200,
           cx := 120, cy := 120, confidence := 1, method := "contour" },
         { type := "object", x := 110, y := 100, w := 40, h := 40, area := 1300,
           cx := 130, cy := 120, confidence := 1, method := "contour" }] 50 =
      [mergeGroup
        { type := "object", x := 100, y := 100, w := 40, h := 40, area := 1200,
          cx := 120, cy := 120, confidence := 1, method := "contour" }
        [{ type := "object", x := 110, y := 100, w := 40, h := 40, area := 1300,
           cx := 130, cy := 120, confidence := 1, method := "contour" }]] :=
  ⟨by decide,
   (merge_two_close_candidates _ _ 50 (by decide)).1⟩

/-! ### C1 — the circle method has no Stage-1 gating -/

/-- Amended C1: the repository's circle method is single-stage.  The HSV
color-mask detector runs unconditionally: the result of a `'circle'` call
does not depend on the frame's circular-transform (Stage-1) detections in
any way, so color-mask candidates are not gated on Stage 1 yielding zero
candidates. -/
theorem circle_method_independent_of_stage1
    (st : BgState) (p : DetectParams) (input : DetectInput)
    (hs : List HoughDetection) :
    detectObjects st "circle" p (some { input with houghDetections := hs }) =
      detectObjects st "circle" p (some input) := by
  rfl

/-! ### The background-model state machine -/

/-- The service state after `k` frames processed by the background branch
with the subtractor present: the learning counter saturates at 30, the
initialized (READY) flag flips at 30, and `m` is the current background
statistic. -/
def learnState (k : ℕ) (m : ℚ) : BgState := ⟨true, decide (30 ≤ k), min k 30, m⟩

theorem bgApply_learnState (k : ℕ) (m : ℚ) (p : DetectParams)
    (input : DetectInput) :
    bgApply (learnState k m) p input =
      learnState (k + 1)
        ((1 - p.bgLearningRate) * m + p.bgLearningRate * input.pixel) := by
  unfold bgApply learnState
  by_cases hk : 30 ≤ k
  · simp only [hk, BgState.mk.injEq]
    simp [BgState.mk.injEq, decide_eq_decide]
    omega
  · simp only [hk, BgState.mk.injEq]
    simp [hk, BgState.mk.injEq, decide_eq_decide]
    omega

theorem bgApply_init (p : DetectParams) (input : DetectInput) :
    bgApply BgState.init p input =
      learnState 1 ((1 - p.bgLearningRate) * 0 + p.bgLearningRate * input.pixel) := by
  unfold bgApply BgState.init learnState
  simp

theorem strategyPhase_fst (st : BgState) (method : String) (p : DetectParams)
    (input : DetectInput) :
    (strategyPhase st method p input).1 =
      if p.useBg = true ∨ method = "background" then bgApply st p input else st := rfl

theorem detectObjects_fst (st : BgState) (method : String) (p : DetectParams)
    (input : DetectInput) :
    (detectObjects st method p (some input)).1 = (strategyPhase st method p input).1 := rfl

/-! ### Membership facts about the candidate pipeline -/

theorem bgCandidate_method {p : DetectParams} {c : Contour} {o : DetObj}
    (h : bgCandidate p c = some o) : o.method = "background" := by
  unfold bgCandidate at h
  split_ifs at h <;> rw [← Option.some.inj h]

theorem contourCandidate_method {p : DetectParams} {c : Contour} {o : DetObj}
    (h : contourCandidate p c = some o) : o.method = "contour" := by
  unfold contourCandidate at h
  split_ifs at h <;> rw [← Option.some.inj h]

theorem circleCandidate_method {p : DetectParams} {c : Contour} {o : DetObj}
    (h : circleCandidate p c = some o) : o.method = "circle" := by
  unfold circleCandidate at h
  split_ifs at h <;> rw [← Option.some.inj h]

theorem mergeGroup_method (o : DetObj) (os : List DetObj) :
    (mergeGroup o os).method = "merged" := rfl

theorem mem_mergeNearbyObjects {o : DetObj} :
    ∀ {l : List DetObj} {t : ℤ}, o ∈ mergeNearbyObjects l t →
      o.method = "merged" ∨ o ∈ l := by
  intro l t
  induction l, t using mergeNearbyObjects.induct with
  | case1 t => intro h; rw [mergeNearbyObjects] at h; simp at h
  | case2 t a rest far ih =>
    intro h
    rw [mergeNearbyObjects] at h
    simp only [List.mem_cons] at h
    rcases h with h | h
    · subst h
      by_cases hn : (rest.filter (fun q => centerClose a q t)).length > 0
      · rw [if_pos hn]
        exact Or.inl rfl
      · rw [if_neg hn]
        exact Or.inr (List.mem_cons_self a rest)
    · rcases ih h with hm | hmem
      · exact Or.inl hm
      · exact Or.inr (List.mem_cons_of_mem _ (List.mem_of_mem_filter hmem))

theorem sortByConfDesc_mem {o : DetObj} {l : List DetObj} :
    o ∈ sortByConfDesc l ↔ o ∈ l :=
  (List.perm_insertionSort _ l).mem_iff

theorem keepBest_subset {o : DetObj} {l : List DetObj} (h : o ∈ keepBest l) :
    o ∈ l := by
  unfold keepBest at h
  split_ifs at h
  · exact sortByConfDesc_mem.mp (List.take_subset _ _ h)
  · exact h

theorem mem_survivors {o : DetObj} {st : BgState} {method : String}
    {p : DetectParams} {input : DetectInput}
    (h : o ∈ survivors st method p input) :
    o.method = "merged" ∨ o ∈ (strategyPhase st method p input).2 := by
  unfold survivors at h
  split_ifs at h
  · exact mem_mergeNearbyObjects h
  · exact Or.inr h

/-- The candidate list of the strategy phase, spelled out. -/
theorem strategyPhase_snd (st : BgState) (method : String) (p : DetectParams)
    (input : DetectInput) :
    (strategyPhase st method p input).2 =
      (if (p.useBg = true ∨ method = "background") ∧
          (strategyPhase st method p input).1.bgInitialized = true then
         input.bgContours.filterMap (bgCandidate p)
       else []) ++
      (if p.useBg = false ∧ (method = "contour" ∨ method = "combined") then
         input.threshContours.filterMap (contourCandidate p)
       else []) ++
      (if p.useBg = false ∧ (method = "blob" ∨ method = "combined") then
         input.blobKeypoints.map blobCandidate
       else []) ++
      (if method = "circle" then
         input.maskContours.filterMap (circleCandidate p)
       else []) := rfl

theorem detectObjects_objects (st : BgState) (method : String) (p : DetectParams)
    (input : DetectInput) :
    (detectObjects st method p (some input)).2.objects =
      keepBest (survivors st method p input) := rfl

/-- While a call leaves the background model unlearned, its result contains
no background-method (motion) candidate: the background branch emits only
once `bg_initialized` is set, and every other strategy tags its candidates
with its own method string. -/
theorem no_motion_while_unlearned (st : BgState) (method : String)
    (p : DetectParams) (input : DetectInput)
    (h : (strategyPhase st method p input).1.bgInitialized = false) :
    ∀ o ∈ (detectObjects st method p (some input)).2.objects,
      o.method ≠ "background" := by
  intro o ho
  rw [detectObjects_objects] at ho
  rcases mem_survivors (keepBest_subset ho) with hm | hm
  · rw [hm]; decide
  · rw [strategyPhase_snd] at hm
    simp only [List.append_assoc, List.mem_append] at hm
    rcases hm with h1 | h1 | h1 | h1
    · split_ifs at h1 with hc
      · rw [hc.2] at h
        exact absurd h (by simp)
      · simp at h1
    · split_ifs at h1 with hc
      · obtain ⟨c, _, hc'⟩ := List.mem_filterMap.mp h1
        rw [contourCandidate_method hc']; decide
      · simp at h1
    · split_ifs at h1 with hc
      · obtain ⟨kp, _, hkp⟩ := List.mem_map.mp h1
        have hb : (blobCandidate kp).method = "blob" := rfl
        rw [← hkp, hb]; decide
      · simp at h1
    · split_ifs at h1 with hc
      · obtain ⟨c, _, hc'⟩ := List.mem_filterMap.mp h1
        rw [circleCandidate_method hc']; decide
      · simp at h1

/-! ### Runs of detection calls -/

theorem detectObjects_fst_learn (k : ℕ) (m : ℚ) (method : String)
    (p : DetectParams) (f : DetectInput)
    (hbg : p.useBg = true ∨ method = "background") :
    (detectObjects (learnState k m) method p (some f)).1 =
      learnState (k + 1)
        ((1 - p.bgLearningRate) * m + p.bgLearningRate * f.pixel) := by
  rw [detectObjects_fst, strategyPhase_fst, if_pos hbg, bgApply_learnState]

theorem runDetect_length (st : BgState) (method : String) (p : DetectParams)
    (frames : List DetectInput) :
    (runDetect st method p frames).2.length = frames.length := by
  induction frames generalizing st with
  | nil => rfl
  | cons f fs ih => simp [runDetect, ih]

theorem strategyPhase_init (method : String) (p : DetectParams)
    (input : DetectInput) (hbg : p.useBg = true ∨ method = "background") :
    strategyPhase BgState.init method p input =
      strategyPhase (learnState 0 0) method p input := by
  have hba : bgApply BgState.init p input = bgApply (learnState 0 0) p input := rfl
  unfold strategyPhase
  rw [if_pos hbg, if_pos hbg, hba]

theorem detectObjects_init (method : String) (p : DetectParams)
    (input : DetectInput) (hbg : p.useBg = true ∨ method = "background") :
    detectObjects BgState.init method p (some input) =
      detectObjects (learnState 0 0) method p (some input) := by
  unfold detectObjects survivors
  dsimp only
  rw [strategyPhase_init method p input hbg]

/-- A fresh service and a zero-frame learning state take the same steps:
the first background-branch call creates the subtractor either way. -/
theorem runDetect_init_snd (method : String) (p : DetectParams)
    (frames : List DetectInput)
    (hbg : p.useBg = true ∨ method = "background") :
    (runDetect BgState.init method p frames).2 =
      (runDetect (learnState 0 0) method p frames).2 := by
  cases frames with
  | nil => rfl
  | cons f fs =>
    show (detectObjects BgState.init method p (some f)).2 ::
        (runDetect (detectObjects BgState.init method p (some f)).1 method p fs).2 = _
    rw [detectObjects_init method p f hbg]
    rfl

theorem runDetect_state (method : String) (p : DetectParams)
    (hbg : p.useBg = true ∨ method = "background") :
    ∀ (frames : List DetectInput) (k : ℕ) (m : ℚ),
      ∃ m', (runDetect (learnState k m) method p frames).1 =
        learnState (k + frames.length) m' := by
  intro frames
  induction frames with
  | nil => intro k m; exact ⟨m, by simp [runDetect]⟩
  | cons f fs ih =>
    intro k m
    obtain ⟨m', hm'⟩ :=
      ih (k + 1) ((1 - p.bgLearningRate) * m + p.bgLearningRate * f.pixel)
    refine ⟨m', ?_⟩
    show (runDetect (detectObjects (learnState k m) method p (some f)).1
            method p fs).1 = _
    rw [detectObjects_fst_learn k m method p f hbg, hm']
    congr 1
    simp only [List.length_cons]
    omega

theorem runDetect_result (method : String) (p : DetectParams)
    (hbg : p.useBg = true ∨ method = "background") :
    ∀ (frames : List DetectInput) (k : ℕ) (m : ℚ) (i : ℕ), i < frames.length →
      ∃ m' f, f ∈ frames ∧
        (runDetect (learnState k m) method p frames).2.get? i =
          some (detectObjects (learnState (k + i) m') method p (some f)).2 := by
  intro frames
  induction frames with
  | nil => intro k m i hi; simp at hi
  | cons f fs ih =>
    intro k m i hi
    cases i with
    | zero =>
      exact ⟨m, f, List.mem_cons_self f fs, rfl⟩
    | succ j =>
      have hj : j < fs.length := by
        simpa using Nat.lt_of_succ_lt_succ hi
      obtain ⟨m', f', hf', heq⟩ :=
        ih (k + 1) ((1 - p.bgLearningRate) * m + p.bgLearningRate * f.pixel) j hj
      refine ⟨m', f', List.mem_cons_of_mem f hf', ?_⟩
      rw [show k + (j + 1) = k + 1 + j by omega]
      show (runDetect (detectObjects (learnState k m) method p (some f)).1
              method p fs).2.get? j = _
      rw [detectObjects_fst_learn k m method p f hbg, heq]

/-! ### C2 — the background learning window -/

/-- A foreground-mask contour of a large solid square object: area 60000,
250×250 bounding box, hull area 60000 (so solidity 1 and confidence
0.6·0.6 + 0.4·1 = 0.76 ≥ 0.7 under default parameters). -/
def c2Contour : Contour :=
  { area := 60000, perimeter := 1000, hullArea := 60000,
    x := 100, y := 100, w := 250, h := 250, mcx := 225, mcy := 225, mcr := 125 }

/-- A frame whose cleaned foreground mask contains `c2Contour`. -/
def c2Input : DetectInput := ⟨0, [c2Contour], [], [], [], []⟩

/-- The background-method candidate `detect_objects` builds for
`c2Contour` under default parameters. -/
def c2Obj : DetObj :=
  { type := "object", x := c2Contour.x, y := c2Contour.y,
    w := c2Contour.w, h := c2Contour.h, area := c2Contour.area,
    cx := pyInt ((c2Contour.x : ℚ) + (c2Contour.w : ℚ) / 2),
    cy := pyInt ((c2Contour.y : ℚ) + (c2Contour.h : ℚ) / 2),
    confidence := pyRound2 (areaConf {} c2Contour * (6/10) +
      contourSolidity c2Contour * (4/10)),
    method := "background",
    aspectRatio := some (pyRound2 (boxAspect c2Contour)),
    solidity := some (pyRound2 (contourSolidity c2Contour)) }

theorem bgCandidate_c2 : bgCandidate ({} : DetectParams) c2Contour = some c2Obj := by
  unfold bgCandidate
  rw [if_pos (by norm_num [DetectParams.minObjectArea, DetectParams.maxObjectArea,
        c2Contour]),
      if_pos (by norm_num [DetectParams.aspectRatioMin, DetectParams.aspectRatioMax,
        boxAspect, c2Contour]),
      if_pos (by norm_num [DetectParams.minConfidence, DetectParams.maxObjectArea,
        areaConf, contourSolidity, c2Contour])]
  rfl

/-- Amended C2: starting from a fresh background model with the background
branch active on every call, the model becomes READY exactly when 30 frames
have been processed — the flag flips during the call on the 30th frame —
and no motion (background-method) candidate appears in the calls on frames
1 through 29.  (A motion candidate can already appear in the call on frame
30, not only from frame 31: see the counterexample.) -/
theorem background_ready_after_30_frames (method : String) (p : DetectParams)
    (frames : List DetectInput)
    (hbg : p.useBg = true ∨ method = "background") :
    ((runDetect BgState.init method p frames).1.bgInitialized = true ↔
       30 ≤ frames.length) ∧
    (∀ i r, i < 29 →
       (runDetect BgState.init method p frames).2.get? i = some r →
       ∀ o ∈ r.objects, o.method ≠ "background") := by
  constructor
  · cases frames with
    | nil => simp [runDetect, BgState.init]
    | cons f fs =>
      have h0 : (detectObjects BgState.init method p (some f)).1 =
          learnState 1 ((1 - p.bgLearningRate) * 0 + p.bgLearningRate * f.pixel) := by
        rw [detectObjects_init method p f hbg,
          detectObjects_fst_learn 0 0 method p f hbg]
      obtain ⟨m', hm'⟩ := runDetect_state method p hbg fs 1
        ((1 - p.bgLearningRate) * 0 + p.bgLearningRate * f.pixel)
      have hfin : (runDetect BgState.init method p (f :: fs)).1 =
          learnState (1 + fs.length) m' := by
        show (runDetect (detectObjects BgState.init method p (some f)).1
                method p fs).1 = _
        rw [h0, hm']
      rw [hfin]
      unfold learnState
      simp only [List.length_cons, decide_eq_true_eq]
      omega
  · intro i r hi hr o ho
    rw [runDetect_init_snd method p frames hbg] at hr
    have hi2 : i < frames.length := by
      have h1 := (List.get?_eq_some.mp hr).1
      rwa [runDetect_length] at h1
    obtain ⟨m', f', _, heq⟩ := runDetect_result method p hbg frames 0 0 i hi2
    rw [heq] at hr
    have hr' : r = (detectObjects (learnState (0 + i) m') method p (some f')).2 :=
      (Option.some.inj hr).symm
    subst hr'
    refine no_motion_while_unlearned (learnState (0 + i) m') method p f' ?_ o ho
    rw [strategyPhase_fst, if_pos hbg, bgApply_learnState]
    unfold learnState
    simp only [decide_eq_false_iff_not]
    omega

/-- Witness for the amended C2 at a concrete 5-frame run. -/
theorem background_ready_after_30_frames_witness :
    (((runDetect BgState.init "background" {}
         (List.replicate 5 c2Input)).1.bgInitialized = true ↔
        30 ≤ (List.replicate 5 c2Input).length) ∧
     (∀ i r, i < 29 →
        (runDetect BgState.init "background" {}
          (List.replicate 5 c2Input)).2.get? i = some r →
        ∀ o ∈ r.objects, o.method ≠ "background")) :=
  background_ready_after_30_frames "background" {}
    (List.replicate 5 c2Input) (Or.inr rfl)

/-- Counterexample to C2 as stated: in a 30-frame run from a fresh model,
the call on the 30th frame (index 29) already returns a motion candidate —
the claim's "never in a detection call on any of frames 1 through 30" fails
at frame 30, because `bg_learning_frames` is incremented and the flag set
before the same call's detection step. -/
theorem background_frame30_counterexample :
    ∃ r, (runDetect BgState.init "background" {}
        (List.replicate 30 c2Input)).2.get? 29 = some r ∧
      ∃ o ∈ r.objects, o.method = "background" := by
  have hbg : ({} : DetectParams).useBg = true ∨ "background" = "background" :=
    Or.inr rfl
  have hlen : (29 : ℕ) < (List.replicate 30 c2Input).length := by simp
  obtain ⟨m', f, hf, heq⟩ :=
    runDetect_result "background" {} hbg (List.replicate 30 c2Input) 0 0 29 hlen
  have hfc : f = c2Input := List.eq_of_mem_replicate hf
  subst hfc
  rw [runDetect_init_snd "background" {} _ hbg]
  refine ⟨_, heq, ?_⟩
  rw [detectObjects_objects]
  have hinit : (strategyPhase (learnState (0 + 29) m') "background" {}
      c2Input).1.bgInitialized = true := by
    rw [strategyPhase_fst, if_pos hbg, bgApply_learnState]
    rfl
  have hsurv : survivors (learnState (0 + 29) m') "background" {} c2Input =
      List.filterMap (bgCandidate {}) [c2Contour] := by
    unfold survivors
    rw [if_neg (by simp), strategyPhase_snd, if_pos ⟨hbg, hinit⟩,
      if_neg (by simp [DetectParams.useBg]),
      if_neg (by simp [DetectParams.useBg]),
      if_neg (by simp)]
    simp [c2Input]
  rw [hsurv]
  simp only [List.filterMap_cons, List.filterMap_nil, bgCandidate_c2]
  exact ⟨c2Obj, by simp [keepBest], rfl⟩

/-! ### C8 — the READY-state statistics are not frozen -/

/-- An empty frame whose blurred-grayscale value is 100, differing from a
background learned on dark frames. -/
def c8Input : DetectInput := ⟨100, [], [], [], [], []⟩

/-- Amended C8: once the model is READY (k ≥ 30 frames processed), a
further detection call leaves the learned flag and the frame counter
unchanged, but the subtractor statistics are still updated — `apply` runs
with the configured learning rate on every processed frame, so the
background estimate keeps absorbing each frame (it is reset only on
release, not frozen). -/
theorem ready_state_statistics_update (k : ℕ) (m : ℚ) (method : String)
    (p : DetectParams) (input : DetectInput) (hk : 30 ≤ k)
    (hbg : p.useBg = true ∨ method = "background") :
    (detectObjects (learnState k m) method p (some input)).1 =
      learnState k ((1 - p.bgLearningRate) * m + p.bgLearningRate * input.pixel) := by
  rw [detectObjects_fst_learn k m method p input hbg]
  have h2 : decide (30 ≤ k + 1) = decide (30 ≤ k) := by
    simp only [decide_eq_decide]
    omega
  have h3 : min (k + 1) 30 = min k 30 := by omega
  unfold learnState
  rw [h2, h3]

/-- Witness for the amended C8: a READY model learned on dark frames
absorbs a bright frame into its statistics (0 becomes 1/10). -/
theorem ready_state_statistics_update_witness :
    (detectObjects (learnState 30 0) "background" {} (some c8Input)).1 =
      learnState 30 (1/10) := by
  rw [ready_state_statistics_update 30 0 "background" {} c8Input
    (by norm_num) (Or.inr rfl)]
  norm_num [learnState, DetectParams.bgLearningRate, c8Input]

/-- Counterexample to C8 as stated: a detection call on a READY model does
change the internal statistics. -/
theorem background_frozen_counterexample :
    (learnState 30 0).bgInitialized = true ∧
    (detectObjects (learnState 30 0) "background" {} (some c8Input)).1.model ≠
      (learnState 30 0).model := by
  refine ⟨rfl, ?_⟩
  rw [detectObjects_fst_learn 30 0 "background" {} c8Input (Or.inr rfl)]
  norm_num [learnState, DetectParams.bgLearningRate, c8Input]

/-! ### C1 — counterexample inputs: a frame seen by both stages -/

/-- An HSV-object-mask contour of a large circular counter: area 90000,
perimeter 1130 (circularity ≈ 0.886), square 300×300 bounding box. -/
def c1MaskContour : Contour :=
  { area := 90000, perimeter := 1130, hullArea := 90000,
    x := 100, y := 100, w := 300, h := 300, mcx := 250, mcy := 250, mcr := 170 }

/-- A frame on which the spec's Stage-1 circular transform detects one
valid circle (fit area 90000, fit perimeter 1300, circularity ≈ 0.669 ≥
0.65) and whose HSV object mask contains `c1MaskContour`. -/
def c1Input : DetectInput :=
  ⟨0, [], [], [], [c1MaskContour], [⟨90000, 1300⟩]⟩

/-- The circle-method candidate `detect_objects` builds for
`c1MaskContour` under default parameters. -/
def c1Obj : DetObj :=
  { type := "circle", x := c1MaskContour.x, y := c1MaskContour.y,
    w := c1MaskContour.w, h := c1MaskContour.h, area := c1MaskContour.area,
    cx := pyInt c1MaskContour.mcx, cy := pyInt c1MaskContour.mcy,
    radius := some (pyInt c1MaskContour.mcr),
    circularity := some (pyRound2 (contourCircularity c1MaskContour)),
    confidence := pyRound2 (contourCircularity c1MaskContour * (7/10) +
      areaConf {} c1MaskContour * (3/10)),
    method := "circle",
    aspectRatio := some (pyRound2 (boxAspect c1MaskContour)) }

theorem circleCandidate_c1 :
    circleCandidate ({} : DetectParams) c1MaskContour = some c1Obj := by
  unfold circleCandidate
  rw [if_pos (by norm_num [DetectParams.minObjectArea, DetectParams.maxObjectArea,
        c1MaskContour]),
      if_pos (by norm_num [DetectParams.minCircularity, contourCircularity,
        npPi, c1MaskContour]),
      if_pos (by norm_num [boxAspect, c1MaskContour]),
      if_pos (by norm_num [DetectParams.minConfidence, DetectParams.maxObjectArea,
        contourCircularity, areaConf, npPi, c1MaskContour])]
  rfl

theorem survivors_c1 :
    survivors BgState.init "circle" {} c1Input = [c1Obj] := by
  have hinitF : (strategyPhase BgState.init "circle" {} c1Input).1.bgInitialized
      = false := by
    rw [strategyPhase_fst, if_pos (show ({} : DetectParams).useBg = true ∨
      "circle" = "background" from Or.inl rfl)]
    rfl
  unfold survivors
  rw [if_neg (by simp), strategyPhase_snd, if_neg (by simp [hinitF]),
    if_neg (by simp [DetectParams.useBg]),
    if_neg (by simp [DetectParams.useBg]), if_pos rfl]
  simp [c1Input, circleCandidate_c1]

/-- Counterexample to C1 as stated: on `c1Input` the (spec-modelled)
Stage-1 transform yields a candidate, yet the returned `'circle'` result
still contains an HSV color-mask candidate — the code has no Stage-1
gating (the mask detector is its only stage and runs unconditionally). -/
theorem circle_stage_gating_counterexample :
    stage1Candidates {} c1Input.houghDetections ≠ [] ∧
    ∃ o ∈ (detectObjects BgState.init "circle" {} (some c1Input)).2.objects,
      o.method = "circle" := by
  constructor
  · unfold stage1Candidates c1Input
    rw [List.filterMap_cons,
      if_pos (by norm_num [DetectParams.minObjectArea, DetectParams.maxObjectArea]),
      if_pos (by norm_num [npPi])]
    simp
  · rw [detectObjects_objects, survivors_c1]
    exact ⟨c1Obj, by simp [keepBest], rfl⟩

/-! ### C3 — counter numbering -/

instance : IsTotal DetObj (fun a b => a.x ≤ b.x) :=
  ⟨fun a b => Int.le_total a.x b.x⟩

instance : IsTrans DetObj (fun a b => a.x ≤ b.x) :=
  ⟨fun _ _ _ hab hbc => le_trans hab hbc⟩

theorem assignCounterNumbers_get? (objs : List DetObj) (i : ℕ) (A : DetObj)
    (hA : (assignCounterNumbers objs).get? i = some A) :
    ∃ hi : i < (objs.insertionSort fun a b => a.x ≤ b.x).length,
      A = { (objs.insertionSort fun a b => a.x ≤ b.x).get ⟨i, hi⟩ with
            counterNumber := some (i + 1) } := by
  obtain ⟨hlen, hval⟩ := List.get?_eq_some.mp hA
  have hlen' : i < (objs.insertionSort fun a b => a.x ≤ b.x).length := by
    have := hlen
    unfold assignCounterNumbers at this
    rwa [List.length_mapIdx] at this
  refine ⟨hlen', ?_⟩
  rw [← hval]
  unfold assignCounterNumbers
  simp [List.get_eq_getElem, List.getElem_mapIdx]

/-- Amended C3: in every numbered result, `counterNumber` values are
exactly `1..N` in list order, and numbering follows the stable sort by
ascending bounding-box `x` (the LEFT EDGE, `obj.get('x', 0)`) — so
`A.x < B.x` implies `A.counterNumber < B.counterNumber`.  Ordering by
center x is NOT guaranteed (see the counterexample). -/
theorem counterNumbers_contiguous_by_left_edge (objs : List DetObj) :
    (∀ i A, (assignCounterNumbers objs).get? i = some A →
       A.counterNumber = some (i + 1)) ∧
    (∀ i j A B, (assignCounterNumbers objs).get? i = some A →
       (assignCounterNumbers objs).get? j = some B →
       A.x < B.x →
       A.counterNumber.getD 0 < B.counterNumber.getD 0) := by
  constructor
  · intro i A hA
    obtain ⟨hi, rfl⟩ := assignCounterNumbers_get? objs i A hA
    rfl
  · intro i j A B hA hB hx
    obtain ⟨hi, rfl⟩ := assignCounterNumbers_get? objs i A hA
    obtain ⟨hj, rfl⟩ := assignCounterNumbers_get? objs j B hB
    have hsorted : List.Sorted (fun a b : DetObj => a.x ≤ b.x)
        (objs.insertionSort fun a b => a.x ≤ b.x) :=
      List.sorted_insertionSort _ _
    have hij : i < j := by
      rcases Nat.lt_trichotomy i j with h | h | h
      · exact h
      · exact absurd hx (by simp [h])
      · have := hsorted.rel_get_of_lt (show (⟨j, hj⟩ : Fin _) < ⟨i, hi⟩ from h)
        simp only at hx this
        exact absurd hx (not_lt.mpr this)
    simpa using Nat.succ_lt_succ hij

/-- The two-object numbering at the heart of the counterexample: A has the
smaller left edge (x = 10) but the larger center (cx = 60). -/
def c3ObjA : DetObj :=
  { type := "counter", x := 10, y := 0, w := 100, h := 40, area := 4000,
    cx := 60, cy := 20, confidence := 1, method := "yolo" }

/-- B has the larger left edge (x = 15) but the smaller center (cx = 25). -/
def c3ObjB : DetObj :=
  { type := "counter", x := 15, y := 0, w := 20, h := 40, area := 800,
    cx := 25, cy := 20, confidence := 1, method := "yolo" }

theorem assignCounterNumbers_c3 :
    assignCounterNumbers [c3ObjA, c3ObjB] =
      [{ c3ObjA with counterNumber := some 1 },
       { c3ObjB with counterNumber := some 2 }] := by
  decide

/-- Witness for the amended C3 at the concrete two-object list. -/
theorem counterNumbers_contiguous_by_left_edge_witness :
    ({ c3ObjA with counterNumber := some 1 } : DetObj).counterNumber = some 1 ∧
    (({ c3ObjA with counterNumber := some 1 } : DetObj).counterNumber.getD 0 <
      ({ c3ObjB with counterNumber := some 2 } : DetObj).counterNumber.getD 0) := by
  have h := counterNumbers_contiguous_by_left_edge [c3ObjA, c3ObjB]
  have h0 : (assignCounterNumbers [c3ObjA, c3ObjB]).get? 0 =
      some { c3ObjA with counterNumber := some 1 } := by
    rw [assignCounterNumbers_c3]; rfl
  have h1 : (assignCounterNumbers [c3ObjA, c3ObjB]).get? 1 =
      some { c3ObjB with counterNumber := some 2 } := by
    rw [assignCounterNumbers_c3]; rfl
  exact ⟨h.1 0 _ h0, h.2 0 1 _ _ h0 h1 (by decide)⟩

/-- Counterexample to C3 as stated: numbering is by the bounding box's
left edge, not by center x.  Here B's center (25) is left of A's center
(60), yet B gets `counterNumber` 2 and A gets 1. -/
theorem counterNumber_center_x_counterexample :
    ¬ (∀ A ∈ assignCounterNumbers [c3ObjA, c3ObjB],
        ∀ B ∈ assignCounterNumbers [c3ObjA, c3ObjB],
          A.cx < B.cx → A.counterNumber.getD 0 < B.counterNumber.getD 0) := by
  intro h
  have := h { c3ObjB with counterNumber := some 2 }
    (by rw [assignCounterNumbers_c3]; simp)
    { c3ObjA with counterNumber := some 1 }
    (by rw [assignCounterNumbers_c3]; simp)
    (by decide)
  simp at this

/-! ### C5 — the single-best-survivor policy -/

instance : IsTotal DetObj (fun a b => b.confidence ≤ a.confidence) :=
  ⟨fun a b => le_total b.confidence a.confidence⟩

instance : IsTrans DetObj (fun a b => b.confidence ≤ a.confidence) :=
  ⟨fun _ _ _ hab hbc => le_trans hbc hab⟩

theorem keepBest_spec (l : List DetObj) (h : 1 < l.length) :
    ∃ b, keepBest l = [b] ∧ b ∈ l ∧ ∀ o ∈ l, o.confidence ≤ b.confidence := by
  have hlen : (sortByConfDesc l).length = l.length := by
    unfold sortByConfDesc
    exact List.length_insertionSort _ _
  obtain ⟨b, rest, hbr⟩ : ∃ b rest, sortByConfDesc l = b :: rest := by
    cases hs : sortByConfDesc l with
    | nil => rw [hs] at hlen; simp at hlen; omega
    | cons b rest => exact ⟨b, rest, rfl⟩
  refine ⟨b, ?_, ?_, ?_⟩
  · unfold keepBest
    rw [if_pos h, hbr]
    rfl
  · exact sortByConfDesc_mem.mp (hbr ▸ List.mem_cons_self b rest)
  · intro o ho
    have hsorted : List.Sorted (fun a b : DetObj => b.confidence ≤ a.confidence)
        (sortByConfDesc l) := List.sorted_insertionSort _ _
    rw [hbr] at hsorted
    have ho' : o ∈ b :: rest := hbr ▸ sortByConfDesc_mem.mpr ho
    rcases List.mem_cons.mp ho' with rfl | hmem
    · exact le_refl _
    · exact (List.sorted_cons.mp hsorted).1 o hmem

/-- C5: whenever more than one candidate survives filtering and merging in
one detection call, the returned result contains exactly one object — a
survivor of maximal confidence — and `object_count` equals 1. -/
theorem multi_survivor_keeps_single_best (st : BgState) (method : String)
    (p : DetectParams) (input : DetectInput)
    (h : 1 < (survivors st method p input).length) :
    ∃ b, (detectObjects st method p (some input)).2.objects = [b] ∧
      b ∈ survivors st method p input ∧
      (∀ o ∈ survivors st method p input, o.confidence ≤ b.confidence) ∧
      (detectObjects st method p (some input)).2.objectCount = 1 := by
  obtain ⟨b, hkb, hmem, hmax⟩ := keepBest_spec _ h
  refine ⟨b, ?_, hmem, hmax, ?_⟩
  · rw [detectObjects_objects, hkb]
  · show (if (survivors st method p input).length > 1 then 1
        else (survivors st method p input).length) = 1
    rw [if_pos h]

/-- A second valid mask contour, placed to the right of `c1MaskContour`. -/
def c5Contour : Contour :=
  { area := 90000, perimeter := 1130, hullArea := 90000,
    x := 600, y := 100, w := 300, h := 300, mcx := 750, mcy := 250, mcr := 170 }

/-- A frame whose HSV object mask contains two valid circular contours. -/
def c5Input : DetectInput := ⟨0, [], [], [], [c1MaskContour, c5Contour], []⟩

/-- The circle-method candidate built for `c5Contour`. -/
def c5Obj : DetObj :=
  { type := "circle", x := c5Contour.x, y := c5Contour.y,
    w := c5Contour.w, h := c5Contour.h, area := c5Contour.area,
    cx := pyInt c5Contour.mcx, cy := pyInt c5Contour.mcy,
    radius := some (pyInt c5Contour.mcr),
    circularity := some (pyRound2 (contourCircularity c5Contour)),
    confidence := pyRound2 (contourCircularity c5Contour * (7/10) +
      areaConf {} c5Contour * (3/10)),
    method := "circle",
    aspectRatio := some (pyRound2 (boxAspect c5Contour)) }

theorem circleCandidate_c5 :
    circleCandidate ({} : DetectParams) c5Contour = some c5Obj := by
  unfold circleCandidate
  rw [if_pos (by norm_num [DetectParams.minObjectArea, DetectParams.maxObjectArea,
        c5Contour]),
      if_pos (by norm_num [DetectParams.minCircularity, contourCircularity,
        npPi, c5Contour]),
      if_pos (by norm_num [boxAspect, c5Contour]),
      if_pos (by norm_num [DetectParams.minConfidence, DetectParams.maxObjectArea,
        contourCircularity, areaConf, npPi, c5Contour])]
  rfl

theorem survivors_c5 :
    survivors BgState.init "circle" {} c5Input = [c1Obj, c5Obj] := by
  have hinitF : (strategyPhase BgState.init "circle" {} c5Input).1.bgInitialized
      = false := by
    rw [strategyPhase_fst, if_pos (show ({} : DetectParams).useBg = true ∨
      "circle" = "background" from Or.inl rfl)]
    rfl
  unfold survivors
  rw [if_neg (by simp), strategyPhase_snd, if_neg (by simp [hinitF]),
    if_neg (by simp [DetectParams.useBg]),
    if_neg (by simp [DetectParams.useBg]), if_pos rfl]
  simp [c5Input, circleCandidate_c1, circleCandidate_c5]

/-- Witness for C5: with two circular survivors, the result keeps exactly
one, of maximal confidence, with `object_count = 1`. -/
theorem multi_survivor_keeps_single_best_witness :
    1 < (survivors BgState.init "circle" {} c5Input).length ∧
    ∃ b, (detectObjects BgState.init "circle" {} (some c5Input)).2.objects = [b] ∧
      b ∈ survivors BgState.init "circle" {} c5Input ∧
      (∀ o ∈ survivors BgState.init "circle" {} c5Input,
        o.confidence ≤ b.confidence) ∧
      (detectObjects BgState.init "circle" {} (some c5Input)).2.objectCount = 1 := by
  have h : 1 < (survivors BgState.init "circle" {} c5Input).length := by
    rw [survivors_c5]
    simp
  exact ⟨h, multi_survivor_keeps_single_best BgState.init "circle" {} c5Input h⟩

/-! ### C10 — default parameters suppress the contour and blob branches -/

/-- C10: if `use_background_subtraction` is omitted (defaulting to true),
a `'contour'` or `'blob'` call never runs those strategies: every returned
candidate is a background-subtraction candidate, and the whole result is
independent of the threshold contours and blob keypoints of the frame. -/
theorem default_bg_suppresses_contour_blob (st : BgState) (method : String)
    (p : DetectParams) (input : DetectInput)
    (hbg : p.use_background_subtraction = none)
    (hm : method = "contour" ∨ method = "blob") :
    (∀ o ∈ (detectObjects st method p (some input)).2.objects,
       o.method = "background") ∧
    (∀ tc bk,
       detectObjects st method p (some input) =
         detectObjects st method p
           (some { input with threshContours := tc, blobKeypoints := bk })) := by
  have hu : p.useBg = true := by simp [DetectParams.useBg, hbg]
  constructor
  · intro o ho
    rw [detectObjects_objects] at ho
    have ho' : o ∈ survivors st method p input := keepBest_subset ho
    have hnc : ¬ (method = "combined" ∧
        (strategyPhase st method p input).2.length > 0) := by
      rcases hm with rfl | rfl <;> simp
    unfold survivors at ho'
    rw [if_neg hnc, strategyPhase_snd] at ho'
    simp only [List.append_assoc, List.mem_append] at ho'
    rcases ho' with h1 | h1 | h1 | h1
    · split_ifs at h1 with hc
      · obtain ⟨c, _, hc'⟩ := List.mem_filterMap.mp h1
        exact bgCandidate_method hc'
      · simp at h1
    · split_ifs at h1 with hc
      · exact absurd hc.1 (by simp [hu])
      · simp at h1
    · split_ifs at h1 with hc
      · exact absurd hc.1 (by simp [hu])
      · simp at h1
    · split_ifs at h1 with hc
      · exact absurd hc (by rcases hm with rfl | rfl <;> simp)
      · simp at h1
  · intro tc bk
    have hba : bgApply st p input =
        bgApply st p { input with threshContours := tc, blobKeypoints := bk } := rfl
    have hsp : strategyPhase st method p input =
        strategyPhase st method p
          { input with threshContours := tc, blobKeypoints := bk } := by
      rcases hm with rfl | rfl <;> simp [strategyPhase, hu, ← hba]
    unfold detectObjects survivors
    dsimp only
    rw [hsp]

/-- Witness for C10 at a concrete contour call under default parameters. -/
theorem default_bg_suppresses_contour_blob_witness :
    (∀ o ∈ (detectObjects BgState.init "contour" {} (some c2Input)).2.objects,
       o.method = "background") ∧
    (∀ tc bk,
       detectObjects BgState.init "contour" {} (some c2Input) =
         detectObjects BgState.init "contour" {}
           (some { c2Input with threshContours := tc, blobKeypoints := bk })) :=
  default_bg_suppresses_contour_blob BgState.init "contour" {} c2Input rfl
    (Or.inl rfl)

/-! ### C6 — `objects_found` ⇔ non-empty candidate list -/

/-- C6: every result of the detection engine — the OpenCV `detect_objects`
path and the YOLO `detect_with_yolo` path, on every frame, method, state
and parameter set, error branches included — satisfies
`objects_found ⇔ len(objects) > 0`. -/
theorem objectsFound_iff_nonempty :
    (∀ (st : BgState) (method : String) (p : DetectParams)
       (frame : Option DetectInput),
       ((detectObjects st method p frame).2.objectsFound = true ↔
         (detectObjects st method p frame).2.objects ≠ [])) ∧
    (∀ (ya ml : Bool) (input : YoloInput) (p : YoloParams),
       ((detectWithYolo ya ml input p).objectsFound = true ↔
         (detectWithYolo ya ml input p).objects ≠ [])) := by
  constructor
  · intro st method p frame
    cases frame with
    | none => simp [detectObjects]
    | some input =>
      show decide (0 < if (survivors st method p input).length > 1 then 1
          else (survivors st method p input).length) = true ↔
        keepBest (survivors st method p input) ≠ []
      unfold keepBest
      by_cases hlen : (survivors st method p input).length > 1
      · rw [if_pos hlen, if_pos hlen]
        have hs : (sortByConfDesc (survivors st method p input)).length =
            (survivors st method p input).length := by
          unfold sortByConfDesc
          exact List.length_insertionSort _ _
        simp only [decide_eq_true_eq]
        constructor
        · intro _ htake
          rcases List.take_eq_nil_iff.mp htake with h1 | h1
          · exact one_ne_zero h1
          · rw [h1] at hs
            simp at hs
            omega
        · intro _
          norm_num
      · rw [if_neg hlen, if_neg hlen]
        simp [List.length_pos]
  · intro ya ml input p
    unfold detectWithYolo
    dsimp only
    split_ifs <;> simp [List.length_pos]

/-! ### C7 — every returned confidence lies in [0, 1] -/

theorem bgCandidate_conf {p : DetectParams} {c : Contour} {o : DetObj}
    (hv : 0 ≤ c.area ∧ c.area ≤ c.hullArea)
    (h : bgCandidate p c = some o) : 0 ≤ o.confidence ∧ o.confidence ≤ 1 := by
  unfold bgCandidate at h
  split_ifs at h with h1 h2 h3
  rw [← Option.some.inj h]
  have hmax : (0 : ℚ) < p.maxObjectArea := lt_of_le_of_lt hv.1 h1.2
  have hac : 0 ≤ areaConf p c ∧ areaConf p c ≤ 1 := by
    unfold areaConf
    exact ⟨le_min (div_nonneg hv.1 hmax.le) zero_le_one, min_le_right _ _⟩
  have hsol : 0 ≤ contourSolidity c ∧ contourSolidity c ≤ 1 := by
    unfold contourSolidity
    split_ifs with hh
    · exact ⟨div_nonneg hv.1 hh.le, (div_le_one hh).mpr hv.2⟩
    · norm_num
  constructor
  · exact pyRound2_nonneg _ (by nlinarith [hac.1, hsol.1])
  · exact pyRound2_le_one _ (by nlinarith [hac.2, hsol.2, hac.1, hsol.1])

theorem circleCandidate_conf {p : DetectParams} {c : Contour} {o : DetObj}
    (hv : 0 ≤ c.area ∧ (0 < c.perimeter → 4 * npPi * c.area ≤ c.perimeter ^ 2))
    (h : circleCandidate p c = some o) : 0 ≤ o.confidence ∧ o.confidence ≤ 1 := by
  unfold circleCandidate at h
  split_ifs at h with h1 h2 h3 h4
  rw [← Option.some.inj h]
  have hmax : (0 : ℚ) < p.maxObjectArea := lt_of_le_of_lt hv.1 h1.2
  have hac : 0 ≤ areaConf p c ∧ areaConf p c ≤ 1 := by
    unfold areaConf
    exact ⟨le_min (div_nonneg hv.1 hmax.le) zero_le_one, min_le_right _ _⟩
  have hcirc : 0 ≤ contourCircularity c ∧ contourCircularity c ≤ 1 := by
    unfold contourCircularity
    split_ifs with hh
    · constructor
      · apply div_nonneg _ (by positivity)
        have : (0 : ℚ) < npPi := by norm_num [npPi]
        nlinarith [hv.1]
      · rw [div_le_one (by positivity)]
        exact hv.2 hh
    · norm_num
  constructor
  · exact pyRound2_nonneg _ (by nlinarith [hac.1, hcirc.1])
  · exact pyRound2_le_one _ (by nlinarith [hac.2, hcirc.2, hac.1, hcirc.1])

theorem strategyPhase_conf (st : BgState) (method : String) (p : DetectParams)
    (input : DetectInput)
    (hbgv : ∀ c ∈ input.bgContours, 0 ≤ c.area ∧ c.area ≤ c.hullArea)
    (hmaskv : ∀ c ∈ input.maskContours,
      0 ≤ c.area ∧ (0 < c.perimeter → 4 * npPi * c.area ≤ c.perimeter ^ 2)) :
    ∀ o ∈ (strategyPhase st method p input).2,
      0 ≤ o.confidence ∧ o.confidence ≤ 1 := by
  intro o ho
  rw [strategyPhase_snd] at ho
  simp only [List.append_assoc, List.mem_append] at ho
  rcases ho with h1 | h1 | h1 | h1
  · split_ifs at h1
    · obtain ⟨c, hc, hc'⟩ := List.mem_filterMap.mp h1
      exact bgCandidate_conf (hbgv c hc) hc'
    · simp at h1
  · split_ifs at h1
    · obtain ⟨c, _, hc'⟩ := List.mem_filterMap.mp h1
      rw [← Option.some.inj ((by
        unfold contourCandidate at hc'
        split_ifs at hc'
        exact hc') : some _ = some o)]
      norm_num
    · simp at h1
  · split_ifs at h1
    · obtain ⟨kp, _, hkp⟩ := List.mem_map.mp h1
      rw [← hkp]
      show (0 : ℚ) ≤ 6/10 ∧ (6 : ℚ)/10 ≤ 1
      norm_num
    · simp at h1
  · split_ifs at h1
    · obtain ⟨c, hc, hc'⟩ := List.mem_filterMap.mp h1
      exact circleCandidate_conf (hmaskv c hc) hc'
    · simp at h1

theorem foldl_max_conf_bound {lo hi : ℚ} (os : List DetObj) (init : ℚ)
    (hinit : lo ≤ init ∧ init ≤ hi)
    (hos : ∀ q ∈ os, lo ≤ q.confidence ∧ q.confidence ≤ hi) :
    lo ≤ os.foldl (fun m q => max m q.confidence) init ∧
    os.foldl (fun m q => max m q.confidence) init ≤ hi := by
  induction os generalizing init with
  | nil => exact hinit
  | cons q os ih =>
    apply ih
    · exact ⟨le_trans hinit.1 (le_max_left _ _),
        max_le hinit.2 (hos q (List.mem_cons_self _ _)).2⟩
    · intro q' hq'
      exact hos q' (List.mem_cons_of_mem _ hq')

theorem mergeNearbyObjects_conf {lo hi : ℚ} :
    ∀ {l : List DetObj} {t : ℤ},
      (∀ q ∈ l, lo ≤ q.confidence ∧ q.confidence ≤ hi) →
      ∀ o ∈ mergeNearbyObjects l t, lo ≤ o.confidence ∧ o.confidence ≤ hi := by
  intro l t
  induction l, t using mergeNearbyObjects.induct with
  | case1 t =>
    intro _ o ho
    rw [mergeNearbyObjects] at ho
    simp at ho
  | case2 t a rest far ih =>
    intro hl o ho
    rw [mergeNearbyObjects] at ho
    simp only [List.mem_cons] at ho
    rcases ho with rfl | ho
    · by_cases hn : (rest.filter (fun q => centerClose a q t)).length > 0
      · rw [if_pos hn]
        show lo ≤ ((rest.filter (fun q => centerClose a q t)).foldl
            (fun m q => max m q.confidence) a.confidence) ∧ _
        apply foldl_max_conf_bound
        · exact hl a (List.mem_cons_self _ _)
        · intro q hq
          exact hl q (List.mem_cons_of_mem _ (List.mem_of_mem_filter hq))
      · rw [if_neg hn]
        exact hl a (List.mem_cons_self _ _)
    · refine ih (fun q hq => ?_) o ho
      exact hl q (List.mem_cons_of_mem _ (List.mem_of_mem_filter hq))

/-- C7: every candidate in every returned `detect_objects` result has
confidence in [0, 1], for each strategy (motion `0.6·normalized_area +
0.4·solidity`, fixed `0.7`/`0.6` contour and blob candidates, circle
`0.7·circularity + 0.3·normalized_area`) and for merged and best-kept
candidates.  The hypotheses state facts that OpenCV's measurements always
satisfy: `contourArea` is nonnegative, the convex hull's polygon area is at
least the contour's, and a closed polygon obeys the isoperimetric
inequality `4π·area ≤ perimeter²` (with `npPi < π` the stated form is
weaker still). -/
theorem confidence_in_unit_interval (st : BgState) (method : String)
    (p : DetectParams) (input : DetectInput)
    (hbgv : ∀ c ∈ input.bgContours, 0 ≤ c.area ∧ c.area ≤ c.hullArea)
    (hmaskv : ∀ c ∈ input.maskContours,
      0 ≤ c.area ∧ (0 < c.perimeter → 4 * npPi * c.area ≤ c.perimeter ^ 2)) :
    ∀ o ∈ (detectObjects st method p (some input)).2.objects,
      0 ≤ o.confidence ∧ o.confidence ≤ 1 := by
  intro o ho
  rw [detectObjects_objects] at ho
  have hs := keepBest_subset ho
  have hsv : ∀ q ∈ survivors st method p input,
      0 ≤ q.confidence ∧ q.confidence ≤ 1 := by
    intro q hq
    unfold survivors at hq
    split_ifs at hq
    · exact mergeNearbyObjects_conf
        (strategyPhase_conf st method p input hbgv hmaskv) q hq
    · exact strategyPhase_conf st method p input hbgv hmaskv q hq
  exact hsv o hs

/-- Witness for C7 on a concrete circle-method frame: the candidate the
engine returns for `c1Input` has confidence in [0, 1]. -/
theorem confidence_in_unit_interval_witness :
    0 ≤ c1Obj.confidence ∧ c1Obj.confidence ≤ 1 :=
  confidence_in_unit_interval BgState.init "circle" {} c1Input
    (by intro c hc; simp [c1Input] at hc)
    (by
      intro c hc
      simp only [c1Input, List.mem_singleton] at hc
      subst hc
      norm_num [c1MaskContour, npPi])
    c1Obj
    (by rw [detectObjects_objects, survivors_c1]; simp [keepBest])

end RpiDobot
